import Mathlib

set_option maxHeartbeats 1000000

namespace ChatBot

/-- Message as held by the in-memory chat history (`memory.chat_memory.messages`
in `src/chatbot.py`). The library message classes carry a `type` string:
`add_user_message` appends a message whose `type` is `"human"` and
`add_ai_message` appends a message whose `type` is `"ai"`; `content` is the
text. -/
structure ChatMessage where
  type : String
  content : String
deriving DecidableEq, Repr

/-- Embeds `memory.chat_memory.add_user_message(user_input)` from
`user_node` in `src/chatbot.py`: appends one message of type `"human"`. -/
def add_user_message (msgs : List ChatMessage) (s : String) : List ChatMessage :=
  msgs ++ [⟨"human", s⟩]

/-- Embeds `memory.chat_memory.add_ai_message(response.content)` from
`assistant_node` in `src/chatbot.py`: appends one message of type `"ai"`. -/
def add_ai_message (msgs : List ChatMessage) (s : String) : List ChatMessage :=
  msgs ++ [⟨"ai", s⟩]

/-- Serialized message object, one element of the JSON document stored in the
`messages` column: a `\x7brole, content\x7d` pair. -/
structure FormattedMessage where
  role : String
  content : String
deriving DecidableEq, Repr

/-- Embeds the `formatted_messages` list comprehension in `src/chatbot.py`
(lines 82 to 85): maps each in-memory message to a record whose `role` field is
the message `type` string and whose `content` field is the text. -/
def formatted_messages (msgs : List ChatMessage) : List FormattedMessage :=
  msgs.map (fun m => ⟨m.type, m.content⟩)

/-- Row of the `chat_history` table as declared in
`DatabaseManager.create_chat_table` in `src/database.py`: serial `id`, unique
`conversation_id`, `user_id`, `created_at`, JSONB `messages`, `updated_at`.
Timestamps are modelled as natural numbers. -/
structure ChatHistoryRow where
  id : Nat
  conversation_id : String
  user_id : String
  created_at : Nat
  messages : List FormattedMessage
  updated_at : Nat
deriving DecidableEq, Repr

/-- The `chat_history` table: its rows plus the next value of the serial
primary key sequence. -/
structure ChatHistoryTable where
  rows : List ChatHistoryRow
  nextId : Nat
deriving DecidableEq, Repr

/-- Lookup of the row keyed by a conversation id (the unique constraint on
`conversation_id` backs the upsert). -/
def findRow (t : ChatHistoryTable) (cid : String) : Option ChatHistoryRow :=
  t.rows.find? (fun r => r.conversation_id == cid)

/-- Embeds the single SQL statement executed on every persist in
`src/chatbot.py` (lines 91 to 96):
`INSERT INTO chat_history (conversation_id, user_id, created_at, messages)
VALUES ... ON CONFLICT (conversation_id) DO UPDATE
SET messages = EXCLUDED.messages`,
followed by one `conn.commit()`. On a fresh insert, `id` is drawn from the
serial sequence and `updated_at` takes its default `CURRENT_TIMESTAMP` (the
`now` argument). On conflict, only the `messages` column is replaced, and the
`update_updated_at_column` trigger from `src/database.py` (a BEFORE UPDATE
trigger) refreshes `updated_at` to `CURRENT_TIMESTAMP`; the `user_id` and
`created_at` values passed with the insert are discarded. The statement plus
commit is one transaction, modelled as a single atomic state change. -/
def upsert (t : ChatHistoryTable) (cid uid : String) (created : Nat)
    (msgs : List FormattedMessage) (now : Nat) : ChatHistoryTable :=
  match t.rows.find? (fun r => r.conversation_id == cid) with
  | some _ =>
      { t with rows := t.rows.map (fun r =>
          if r.conversation_id == cid then
            { r with messages := msgs, updated_at := now }
          else r) }
  | none =>
      { rows := t.rows ++ [⟨t.nextId, cid, uid, created, msgs, now⟩],
        nextId := t.nextId + 1 }

/-- Embeds `USER_ID = "abc"` from `src/chatbot.py` line 26: a hard-coded
module-level constant. -/
def USER_ID : String := "abc"

/-- Embeds `user_input.strip()`: removes whitespace characters from both ends
of the line. -/
def pyStrip (s : String) : String :=
  String.mk (((s.data.dropWhile Char.isWhitespace).reverse.dropWhile
    Char.isWhitespace).reverse)

/-- Embeds `.lower()`: lowercases every character of the line. -/
def pyLower (s : String) : String :=
  String.mk (s.data.map Char.toLower)

/-- Embeds the sentinel check in the chat loop of `src/chatbot.py`:
`user_input.strip().lower() in ["exit", "quit"]`. -/
def isExitSentinel (s : String) : Bool :=
  ["exit", "quit"].contains (pyLower (pyStrip s))

/-- Status of the process running the chat loop. `awaiting` is the loop at the
top of `while True` waiting on `input(...)`; `terminated` is the `break` on the
exit sentinel; `crashed` is an uncaught exception propagating out of the loop
(only the persist block is wrapped in try/except in `src/chatbot.py`, the
`graph.invoke` completion call is not). -/
inductive Status where
  | awaiting
  | terminated
  | crashed
deriving DecidableEq, Repr

/-- One iteration of the chat loop, as seen from the outside: the input line
typed by the user, the behaviour of the external completion capability on this
turn (`some reply` if `llm.invoke` returns `reply`, `none` if it raises), the
behaviour of the database connection on this turn (`persistOk = false` means
the psycopg2 block raises), and the current clock value used for
`CURRENT_TIMESTAMP`. -/
structure TurnInput where
  line : String
  completion : Option String
  persistOk : Bool
  now : Nat
deriving DecidableEq, Repr

/-- State of one run of `src/chatbot.py`: the in-memory message list, the
`chat_history` table, the number of completed turns, and the loop status. -/
structure LoopState where
  messages : List ChatMessage
  table : ChatHistoryTable
  completedTurns : Nat
  status : Status
deriving DecidableEq, Repr

/-- One iteration of the `while True` chat loop in `src/chatbot.py`, given the
per-run constants `cid` (the uuid generated at line 29) and `created` (the
`created_at` captured at line 30). In order: the sentinel check breaks the
loop; otherwise `graph.invoke` runs `user_node` (append the user message) then
`assistant_node` (call the model, append its reply) - if the model call raises,
the exception is not caught anywhere, so the process crashes with the user
message already appended; on success `formatted_messages` is computed from the
full accumulated list and the upsert runs inside try/except, so a persist
failure only prints an error and leaves the table unchanged. -/
def step (cid : String) (created : Nat) (st : LoopState) (inp : TurnInput) :
    LoopState :=
  if st.status = Status.awaiting then
    if isExitSentinel inp.line then
      { st with status := Status.terminated }
    else
      match inp.completion with
      | none =>
          { st with messages := add_user_message st.messages inp.line,
                    status := Status.crashed }
      | some reply =>
          let msgs2 := add_ai_message (add_user_message st.messages inp.line) reply
          { messages := msgs2,
            table :=
              if inp.persistOk then
                upsert st.table cid USER_ID created (formatted_messages msgs2) inp.now
              else st.table,
            completedTurns := st.completedTurns + 1,
            status := Status.awaiting }
  else st

/-- Run of the chat loop from an arbitrary state over a list of turn inputs. -/
def runFrom (cid : String) (created : Nat) (st : LoopState)
    (inputs : List TurnInput) : LoopState :=
  inputs.foldl (step cid created) st

/-- State at process start: empty in-memory history, empty table (the table
was just created by Bootstrap), zero completed turns, loop awaiting input. -/
def initState : LoopState :=
  ⟨[], ⟨[], 0⟩, 0, Status.awaiting⟩

/-- Run of the chat loop from process start. -/
def run (cid : String) (created : Nat) (inputs : List TurnInput) : LoopState :=
  runFrom cid created initState inputs

/-- Master lemma for `upsert`: the row found under `cid` afterwards is the old
row with only `messages` and `updated_at` replaced when a row was present, and
a freshly inserted row otherwise. -/
lemma findRow_upsert (t : ChatHistoryTable) (cid uid : String) (created : Nat)
    (msgs : List FormattedMessage) (now : Nat) :
    findRow (upsert t cid uid created msgs now) cid =
      match findRow t cid with
      | some r => some { r with messages := msgs, updated_at := now }
      | none => some ⟨t.nextId, cid, uid, created, msgs, now⟩ := by
  unfold findRow upsert
  cases h : t.rows.find? (fun r => r.conversation_id == cid) with
  | none =>
      simp [h, List.find?_append]
  | some r =>
      have hpf : ((fun x : ChatHistoryRow => x.conversation_id == cid) ∘
          (fun x : ChatHistoryRow =>
            if x.conversation_id == cid then
              { x with messages := msgs, updated_at := now }
            else x)) = (fun x : ChatHistoryRow => x.conversation_id == cid) := by
        funext x
        by_cases hx : x.conversation_id = cid <;> simp [hx]
      have hr : r.conversation_id = cid := by
        have hs := List.find?_some h
        simpa using hs
      simp only [h, List.find?_map, hpf, Option.map_some]
      simp [hr]

/-- After any `upsert`, the row under `cid` exists and holds exactly the
serialized snapshot that was passed in. -/
lemma findRow_upsert_messages (t : ChatHistoryTable) (cid uid : String)
    (created : Nat) (msgs : List FormattedMessage) (now : Nat) :
    ∃ row, findRow (upsert t cid uid created msgs now) cid = some row ∧
      row.messages = msgs ∧ row.updated_at = now := by
  cases h : findRow t cid with
  | none =>
      exact ⟨⟨t.nextId, cid, uid, created, msgs, now⟩,
        by rw [findRow_upsert, h], rfl, rfl⟩
  | some r =>
      exact ⟨{ r with messages := msgs, updated_at := now },
        by rw [findRow_upsert, h], rfl, rfl⟩

/-- C1: if the persist fails on one turn (the psycopg2 block raises, the
exception is caught, the table is untouched) and succeeds on the next turn,
the row persisted after the second turn holds the serialization of the full
accumulated in-memory history - both turns included - because every persist
serializes the entire `memory.chat_memory.messages` list, never a delta. -/
theorem C1_self_healing_persist (cid : String) (created : Nat) (st : LoopState)
    (s1 r1 s2 r2 : String) (n1 n2 : Nat)
    (hst : st.status = Status.awaiting)
    (h1 : isExitSentinel s1 = false) (h2 : isExitSentinel s2 = false) :
    (step cid created (step cid created st ⟨s1, some r1, false, n1⟩)
        ⟨s2, some r2, true, n2⟩).messages =
      st.messages ++ [⟨"human", s1⟩, ⟨"ai", r1⟩, ⟨"human", s2⟩, ⟨"ai", r2⟩] ∧
    ∃ row, findRow (step cid created
        (step cid created st ⟨s1, some r1, false, n1⟩)
        ⟨s2, some r2, true, n2⟩).table cid = some row ∧
      row.messages = formatted_messages
        (st.messages ++ [⟨"human", s1⟩, ⟨"ai", r1⟩, ⟨"human", s2⟩, ⟨"ai", r2⟩]) := by
  have hstep1 : step cid created st ⟨s1, some r1, false, n1⟩ =
      { messages := st.messages ++ [⟨"human", s1⟩, ⟨"ai", r1⟩],
        table := st.table, completedTurns := st.completedTurns + 1,
        status := Status.awaiting } := by
    simp [step, hst, h1, add_user_message, add_ai_message]
  rw [hstep1]
  have hstep2 : step cid created
      ({ messages := st.messages ++ [⟨"human", s1⟩, ⟨"ai", r1⟩],
         table := st.table, completedTurns := st.completedTurns + 1,
         status := Status.awaiting } : LoopState) ⟨s2, some r2, true, n2⟩ =
      { messages := st.messages ++
          [⟨"human", s1⟩, ⟨"ai", r1⟩, ⟨"human", s2⟩, ⟨"ai", r2⟩],
        table := upsert st.table cid USER_ID created
          (formatted_messages (st.messages ++
            [⟨"human", s1⟩, ⟨"ai", r1⟩, ⟨"human", s2⟩, ⟨"ai", r2⟩])) n2,
        completedTurns := st.completedTurns + 2,
        status := Status.awaiting } := by
    simp [step, h2, add_user_message, add_ai_message]
  rw [hstep2]
  refine ⟨rfl, ?_⟩
  obtain ⟨row, hfind, hmsgs, -⟩ := findRow_upsert_messages st.table cid USER_ID
    created (formatted_messages (st.messages ++
      [⟨"human", s1⟩, ⟨"ai", r1⟩, ⟨"human", s2⟩, ⟨"ai", r2⟩])) n2
  exact ⟨row, hfind, hmsgs⟩

/-- Witness for C1: from the initial state, a turn whose persist fails
followed by a turn whose persist succeeds leaves a row holding all four
messages. -/
theorem C1_self_healing_persist_witness :
    (step "c" 0 (step "c" 0 initState ⟨"a", some "b", false, 1⟩)
        ⟨"c2", some "d", true, 2⟩).messages =
      [⟨"human", "a"⟩, ⟨"ai", "b"⟩, ⟨"human", "c2"⟩, ⟨"ai", "d"⟩] ∧
    ∃ row, findRow (step "c" 0
        (step "c" 0 initState ⟨"a", some "b", false, 1⟩)
        ⟨"c2", some "d", true, 2⟩).table "c" = some row ∧
      row.messages = formatted_messages
        [⟨"human", "a"⟩, ⟨"ai", "b"⟩, ⟨"human", "c2"⟩, ⟨"ai", "d"⟩] :=
  C1_self_healing_persist "c" 0 initState "a" "b" "c2" "d" 1 2 rfl
    (by decide) (by decide)

/-- C2 counterexample: on a turn where the completion call raises, the loop
does not return to awaiting input - the `graph.invoke` call sits outside the
try/except block, so the exception is uncaught and the process crashes. -/
theorem C2_counterexample :
    (step "c" 0 initState ⟨"hello", none, true, 0⟩).status = Status.crashed ∧
    (step "c" 0 initState ⟨"hello", none, true, 0⟩).status ≠ Status.awaiting := by
  decide

/-- C2 amended: a completion failure is not caught anywhere: the process
crashes rather than returning to awaiting input. At the moment of the crash no
assistant message has been appended - the in-memory store holds the earlier
history plus only that turn's user message - and the table is untouched. -/
theorem C2_completion_failure_crashes (cid : String) (created : Nat)
    (st : LoopState) (s : String) (p : Bool) (now : Nat)
    (hst : st.status = Status.awaiting) (h : isExitSentinel s = false) :
    step cid created st ⟨s, none, p, now⟩ =
      { st with messages := st.messages ++ [⟨"human", s⟩],
                status := Status.crashed } := by
  simp [step, hst, h, add_user_message]

/-- Witness for C2 amended: concrete crash on the first turn. -/
theorem C2_completion_failure_crashes_witness :
    step "c" 0 initState ⟨"hello", none, true, 0⟩ =
      { initState with messages := [⟨"human", "hello"⟩],
                       status := Status.crashed } :=
  C2_completion_failure_crashes "c" 0 initState "hello" true 0 rfl (by decide)

/-- C5: calling `upsert` twice with the same conversation id and the same
messages value leaves the persisted row unchanged except the `updated_at`
column, which is refreshed by the second call. -/
theorem C5_upsert_idempotent (t : ChatHistoryTable) (cid uid : String)
    (created : Nat) (msgs : List FormattedMessage) (now1 now2 : Nat) :
    ∃ r1, findRow (upsert t cid uid created msgs now1) cid = some r1 ∧
      r1.messages = msgs ∧
      findRow (upsert (upsert t cid uid created msgs now1)
        cid uid created msgs now2) cid = some { r1 with updated_at := now2 } := by
  cases h : findRow t cid with
  | none =>
      refine ⟨⟨t.nextId, cid, uid, created, msgs, now1⟩, ?_, rfl, ?_⟩
      · rw [findRow_upsert, h]
      · rw [findRow_upsert, findRow_upsert, h]
  | some r =>
      refine ⟨{ r with messages := msgs, updated_at := now1 }, ?_, rfl, ?_⟩
      · rw [findRow_upsert, h]
      · rw [findRow_upsert, findRow_upsert, h]

/-- C6: when a row already exists under `cid`, `upsert` replaces only the
`messages` column and refreshes `updated_at`; the `id`, `conversation_id`,
`user_id` and `created_at` columns keep their old values, even though fresh
`uid` and `created` arguments are passed with every call. -/
theorem C6_upsert_frame (t : ChatHistoryTable) (cid uid : String)
    (created : Nat) (msgs : List FormattedMessage) (now : Nat)
    (r : ChatHistoryRow) (h : findRow t cid = some r) :
    findRow (upsert t cid uid created msgs now) cid =
      some ⟨r.id, r.conversation_id, r.user_id, r.created_at, msgs, now⟩ := by
  rw [findRow_upsert, h]

/-- Witness for C6: after the row is first inserted with user id `abc` and
creation time 7, a second upsert passing user id `zzz` and creation time 99
changes only the messages and the update time. -/
theorem C6_upsert_frame_witness :
    findRow (upsert (upsert ⟨[], 0⟩ "c" "abc" 7 [⟨"human", "x"⟩] 1)
        "c" "zzz" 99 [⟨"human", "x"⟩, ⟨"ai", "y"⟩] 2) "c" =
      some ⟨0, "c", "abc", 7, [⟨"human", "x"⟩, ⟨"ai", "y"⟩], 2⟩ :=
  C6_upsert_frame _ "c" "zzz" 99 _ 2 ⟨0, "c", "abc", 7, [⟨"human", "x"⟩], 1⟩
    (by decide)

/-- C7: an input line whose stripped lowercased form is `exit` or `quit`
terminates the loop, leaving the in-memory history, the table and the turn
counter untouched (no completion call, no persisted extra turn); any other
line proceeds with a turn, appending its user message to the history. -/
theorem C7_exit_sentinel (cid : String) (created : Nat) (st : LoopState)
    (inp : TurnInput) (hst : st.status = Status.awaiting) :
    (isExitSentinel inp.line = true →
      step cid created st inp = { st with status := Status.terminated }) ∧
    (isExitSentinel inp.line = false →
      ∃ rest, (step cid created st inp).messages =
        st.messages ++ ⟨"human", inp.line⟩ :: rest) := by
  constructor
  · intro h
    simp [step, hst, h]
  · intro h
    cases hc : inp.completion with
    | none =>
        exact ⟨[], by simp [step, hst, h, hc, add_user_message]⟩
    | some reply =>
        exact ⟨[⟨"ai", reply⟩],
          by simp [step, hst, h, hc, add_user_message, add_ai_message]⟩

/-- Witness for C7: the input line with surrounding whitespace and mixed case
terminates the loop from the initial state. -/
theorem C7_exit_sentinel_witness :
    step "c" 0 initState ⟨"  Quit ", some "r", true, 0⟩ =
      { initState with status := Status.terminated } :=
  (C7_exit_sentinel "c" 0 initState ⟨"  Quit ", some "r", true, 0⟩ rfl).1
    (by decide)

/-- Count invariant: away from a crashed state, the in-memory history holds
exactly two messages per completed turn. -/
def CountInv (st : LoopState) : Prop :=
  st.status ≠ Status.crashed → st.messages.length = 2 * st.completedTurns

/-- One loop iteration preserves the count invariant. -/
lemma step_CountInv (cid : String) (created : Nat) (st : LoopState)
    (inp : TurnInput) (h : CountInv st) : CountInv (step cid created st inp) := by
  unfold CountInv at h ⊢
  by_cases hst : st.status = Status.awaiting
  · by_cases hs : isExitSentinel inp.line
    · intro _
      simp only [step, hst, if_pos rfl, hs, if_pos]
      exact h (by rw [hst]; intro hc; cases hc)
    · cases hc : inp.completion with
      | none =>
          intro hcr
          exfalso
          apply hcr
          simp [step, hst, hs, hc]
      | some reply =>
          intro _
          have hlen := h (by rw [hst]; intro hcon; cases hcon)
          simp [step, hst, hs, hc, add_user_message, add_ai_message, hlen]
          ring
  · simpa [step, hst] using h

/-- A whole run preserves the count invariant. -/
lemma runFrom_CountInv (cid : String) (created : Nat) (st : LoopState)
    (inputs : List TurnInput) (h : CountInv st) :
    CountInv (runFrom cid created st inputs) := by
  induction inputs generalizing st with
  | nil => exact h
  | cons inp rest ih =>
      exact ih (step cid created st inp) (step_CountInv cid created st inp h)

/-- C8 counterexample: on a run whose second turn has a completion failure,
the store holds three messages (two from the completed first turn plus the
second turn's lone user message) while only one turn completed, so the count
is not twice the number of completed turns. -/
theorem C8_counterexample :
    ¬ ((run "c" 0 [⟨"a", some "b", true, 1⟩, ⟨"x", none, true, 2⟩]).messages.length
        = 2 * (run "c" 0 [⟨"a", some "b", true, 1⟩,
            ⟨"x", none, true, 2⟩]).completedTurns) := by
  decide

/-- C8 amended: at every state in which the process has not crashed (the loop
is awaiting input, or was terminated by the exit sentinel), the number of
messages in the store equals twice the number of completed turns: each
completed turn appends exactly one user message and one assistant message and
nothing removes messages. A turn whose completion call raises crashes the
process and leaves one extra user message behind. -/
theorem C8_two_messages_per_turn (cid : String) (created : Nat)
    (inputs : List TurnInput)
    (h : (run cid created inputs).status ≠ Status.crashed) :
    (run cid created inputs).messages.length =
      2 * (run cid created inputs).completedTurns := by
  have hinv : CountInv (run cid created inputs) := by
    apply runFrom_CountInv
    intro _
    rfl
  exact hinv h

/-- Witness for C8 amended: after two completed turns the store holds four
messages. -/
theorem C8_two_messages_per_turn_witness :
    (run "c" 0 [⟨"a", some "b", true, 1⟩, ⟨"x", some "y", false, 2⟩]).messages.length =
      2 * (run "c" 0 [⟨"a", some "b", true, 1⟩,
          ⟨"x", some "y", false, 2⟩]).completedTurns :=
  C8_two_messages_per_turn "c" 0 [⟨"a", some "b", true, 1⟩,
    ⟨"x", some "y", false, 2⟩] (by decide)

/-- Case analysis on one loop iteration: nothing happens away from the
awaiting state; the sentinel terminates; a completion failure crashes after
the user message; a successful turn appends both messages and, when the
persist block does not raise, upserts the full serialized snapshot. -/
lemma step_cases (cid : String) (created : Nat) (st : LoopState)
    (inp : TurnInput) :
    (st.status ≠ Status.awaiting ∧ step cid created st inp = st) ∨
    (st.status = Status.awaiting ∧ isExitSentinel inp.line = true ∧
      step cid created st inp = { st with status := Status.terminated }) ∨
    (st.status = Status.awaiting ∧ isExitSentinel inp.line = false ∧
      inp.completion = none ∧
      step cid created st inp =
        { st with messages := st.messages ++ [⟨"human", inp.line⟩],
                  status := Status.crashed }) ∨
    (∃ reply, st.status = Status.awaiting ∧ isExitSentinel inp.line = false ∧
      inp.completion = some reply ∧
      step cid created st inp =
        { messages := st.messages ++ [⟨"human", inp.line⟩, ⟨"ai", reply⟩],
          table := if inp.persistOk then
              upsert st.table cid USER_ID created
                (formatted_messages
                  (st.messages ++ [⟨"human", inp.line⟩, ⟨"ai", reply⟩])) inp.now
            else st.table,
          completedTurns := st.completedTurns + 1,
          status := Status.awaiting }) := by
  by_cases hst : st.status = Status.awaiting
  · by_cases hs : isExitSentinel inp.line
    · exact Or.inr (Or.inl ⟨hst, hs, by simp [step, hst, hs]⟩)
    · cases hc : inp.completion with
      | none =>
          refine Or.inr (Or.inr (Or.inl ⟨hst, by simpa using hs, rfl, ?_⟩))
          simp [step, hst, hs, hc, add_user_message]
      | some reply =>
          refine Or.inr (Or.inr (Or.inr ⟨reply, hst, by simpa using hs, rfl, ?_⟩))
          simp [step, hst, hs, hc, add_user_message, add_ai_message]
  · exact Or.inl ⟨hst, by simp [step, hst]⟩

/-- Membership in the table after an `upsert`: each row is an untouched old
row, an old row with its `messages` and `updated_at` replaced, or the freshly
inserted row. -/
lemma mem_upsert_cases (t : ChatHistoryTable) (cid uid : String) (created : Nat)
    (msgs : List FormattedMessage) (now : Nat) (row : ChatHistoryRow)
    (h : row ∈ (upsert t cid uid created msgs now).rows) :
    (∃ r0, r0 ∈ t.rows ∧
      (row = r0 ∨ row = { r0 with messages := msgs, updated_at := now })) ∨
    row = ⟨t.nextId, cid, uid, created, msgs, now⟩ := by
  unfold upsert at h
  cases hf : t.rows.find? (fun r => r.conversation_id == cid) with
  | none =>
      rw [hf] at h
      simp only [List.mem_append, List.mem_singleton] at h
      rcases h with h | h
      · exact Or.inl ⟨row, h, Or.inl rfl⟩
      · exact Or.inr h
  | some r =>
      rw [hf] at h
      simp only [List.mem_map] at h
      obtain ⟨r0, hr0, hrow⟩ := h
      by_cases hc : r0.conversation_id == cid
      · refine Or.inl ⟨r0, hr0, Or.inr ?_⟩
        rw [← hrow, if_pos hc]
      · refine Or.inl ⟨r0, hr0, Or.inl ?_⟩
        rw [← hrow, if_neg hc]

/-- Generic preservation combinator: a property preserved by one loop
iteration is preserved by every run. -/
lemma runFrom_inv (cid : String) (created : Nat) (P : LoopState → Prop)
    (hstep : ∀ st inp, P st → P (step cid created st inp))
    (st : LoopState) (inputs : List TurnInput) (h : P st) :
    P (runFrom cid created st inputs) := by
  induction inputs generalizing st with
  | nil => exact h
  | cons inp rest ih => exact ih (step cid created st inp) (hstep st inp h)

/-- Every row of the table carries the hard-coded user id. -/
def UserIdInv (st : LoopState) : Prop :=
  ∀ row ∈ st.table.rows, row.user_id = USER_ID

/-- One loop iteration preserves the user id invariant: the only table write
passes the module constant `USER_ID` and updates never touch `user_id`. -/
lemma step_UserIdInv (cid : String) (created : Nat) (st : LoopState)
    (inp : TurnInput) (h : UserIdInv st) :
    UserIdInv (step cid created st inp) := by
  rcases step_cases cid created st inp with ⟨-, he⟩ | ⟨-, -, he⟩ |
      ⟨-, -, -, he⟩ | ⟨reply, -, -, -, he⟩ <;> rw [he]
  · exact h
  · exact h
  · exact h
  · by_cases hp : inp.persistOk
    · intro row hrow
      simp only [hp, if_pos] at hrow
      rcases mem_upsert_cases _ _ _ _ _ _ _ hrow with ⟨r0, hr0, hor⟩ | hnew
      · rcases hor with rfl | rfl
        · exact h _ hr0
        · exact h r0 hr0
      · rw [hnew]
    · intro row hrow
      simp only [hp, if_neg] at hrow
      exact h row hrow

/-- C10: the `user_id` column of every persisted row equals the module-level
constant `USER_ID`, which is the literal string `abc`: the user identifier is
hard-coded and never derived from input, configuration or environment. -/
theorem C10_user_id_hardcoded (cid : String) (created : Nat)
    (inputs : List TurnInput) :
    USER_ID = "abc" ∧
    ((run cid created inputs).table.rows.all
      fun row => row.user_id == USER_ID) = true := by
  refine ⟨rfl, ?_⟩
  have hinv : UserIdInv (run cid created inputs) := by
    apply runFrom_inv cid created UserIdInv (step_UserIdInv cid created)
    intro row hrow
    cases hrow
  rw [List.all_eq_true]
  intro row hrow
  exact beq_iff_eq.mpr (hinv row hrow)

/-- Serialization maps message type strings to role strings unchanged. -/
lemma roles_formatted (msgs : List ChatMessage)
    (h : ∀ m ∈ msgs, m.type = "human" ∨ m.type = "ai") :
    ∀ fm ∈ formatted_messages msgs, fm.role = "human" ∨ fm.role = "ai" := by
  intro fm hfm
  simp only [formatted_messages, List.mem_map] at hfm
  obtain ⟨m, hm, rfl⟩ := hfm
  exact h m hm

/-- Role invariant: every in-memory message has type `human` or `ai`, and
every serialized message in the table has role `human` or `ai`. -/
def RolesInv (st : LoopState) : Prop :=
  (∀ m ∈ st.messages, m.type = "human" ∨ m.type = "ai") ∧
  (∀ row ∈ st.table.rows, ∀ fm ∈ row.messages,
    fm.role = "human" ∨ fm.role = "ai")

/-- One loop iteration preserves the role invariant. -/
lemma step_RolesInv (cid : String) (created : Nat) (st : LoopState)
    (inp : TurnInput) (h : RolesInv st) : RolesInv (step cid created st inp) := by
  obtain ⟨hmem, htab⟩ := h
  rcases step_cases cid created st inp with ⟨-, he⟩ | ⟨-, -, he⟩ |
      ⟨-, -, -, he⟩ | ⟨reply, -, -, -, he⟩ <;> rw [he]
  · exact ⟨hmem, htab⟩
  · exact ⟨hmem, htab⟩
  · refine ⟨?_, htab⟩
    intro m hm
    rcases List.mem_append.mp hm with hm | hm
    · exact hmem m hm
    · simp only [List.mem_singleton] at hm
      rw [hm]
      exact Or.inl rfl
  · have hmem2 : ∀ m ∈ st.messages ++ [⟨"human", inp.line⟩, ⟨"ai", reply⟩],
        ChatMessage.type m = "human" ∨ ChatMessage.type m = "ai" := by
      intro m hm
      rcases List.mem_append.mp hm with hm | hm
      · exact hmem m hm
      · simp only [List.mem_cons, List.not_mem_nil, or_false] at hm
        rcases hm with rfl | rfl
        · exact Or.inl rfl
        · exact Or.inr rfl
    refine ⟨hmem2, ?_⟩
    by_cases hp : inp.persistOk
    · intro row hrow
      simp only [hp, if_pos] at hrow
      rcases mem_upsert_cases _ _ _ _ _ _ _ hrow with ⟨r0, hr0, hor⟩ | hnew
      · rcases hor with rfl | rfl
        · exact htab _ hr0
        · exact roles_formatted _ hmem2
      · rw [hnew]
        exact roles_formatted _ hmem2
    · intro row hrow
      simp only [hp, if_neg] at hrow
      exact htab row hrow

/-- C4 counterexample: after the turn where the user sends `hello` and the
completion returns `hi there`, the persisted messages column does not equal
the pair with roles `user` and `assistant` - the code serializes the library
message type strings, which are `human` and `ai`. -/
theorem C4_counterexample :
    (findRow (run "c" 0 [⟨"hello", some "hi there", true, 5⟩]).table "c").map
        ChatHistoryRow.messages ≠
      some [⟨"user", "hello"⟩, ⟨"assistant", "hi there"⟩] := by
  decide

/-- C4 amended: each serialized message in the persisted document has a role
drawn from the pair `human` and `ai` (the library message type strings, not
`user` and `assistant`); after a turn where the user sends `hello` and the
completion returns `hi there`, the persisted messages column equals the pair
with roles `human` and `ai`. -/
theorem C4_roles (cid : String) (created : Nat) (inputs : List TurnInput) :
    ((run cid created inputs).table.rows.all fun row =>
        row.messages.all fun fm =>
          fm.role == "human" || fm.role == "ai") = true ∧
    (findRow (run "c" 0 [⟨"hello", some "hi there", true, 5⟩]).table "c").map
        ChatHistoryRow.messages =
      some [⟨"human", "hello"⟩, ⟨"ai", "hi there"⟩] := by
  constructor
  · have hinv : RolesInv (run cid created inputs) := by
      apply runFrom_inv cid created RolesInv (step_RolesInv cid created)
      refine ⟨?_, ?_⟩
      · intro m hm
        cases hm
      · intro row hrow
        cases hrow
    rw [List.all_eq_true]
    intro row hrow
    rw [List.all_eq_true]
    intro fm hfm
    rcases hinv.2 row hrow fm hfm with hr | hr <;> simp [hr]
  · decide

/-- Persisted-snapshot invariant: either no row has been written for the run's
conversation id yet, or the stored messages column is the serialization of an
even-length initial segment of the in-memory history (whole turns only). -/
def StoreInv (cid : String) (st : LoopState) : Prop :=
  findRow st.table cid = none ∨
  ∃ m, (∃ rest, m ++ rest = st.messages) ∧ m.length % 2 = 0 ∧
    (findRow st.table cid).map ChatHistoryRow.messages =
      some (formatted_messages m)

/-- One loop iteration preserves the count invariant together with the
persisted-snapshot invariant. -/
lemma step_StoreInv (cid : String) (created : Nat) (st : LoopState)
    (inp : TurnInput) (h : CountInv st ∧ StoreInv cid st) :
    CountInv (step cid created st inp) ∧ StoreInv cid (step cid created st inp) := by
  refine ⟨step_CountInv cid created st inp h.1, ?_⟩
  obtain ⟨hcount, hstore⟩ := h
  rcases step_cases cid created st inp with ⟨-, he⟩ | ⟨-, -, he⟩ |
      ⟨hst, -, -, he⟩ | ⟨reply, hst, -, -, he⟩ <;> rw [he]
  · exact hstore
  · exact hstore
  · rcases hstore with hnone | ⟨m, ⟨rest, hrest⟩, heven, hmsgs⟩
    · exact Or.inl hnone
    · exact Or.inr ⟨m, ⟨rest ++ [⟨"human", inp.line⟩],
        by rw [← List.append_assoc, hrest]⟩, heven, hmsgs⟩
  · by_cases hp : inp.persistOk
    · simp only [hp, if_pos]
      refine Or.inr ⟨st.messages ++ [⟨"human", inp.line⟩, ⟨"ai", reply⟩],
        ⟨[], by simp⟩, ?_, ?_⟩
      · have hlen : st.messages.length = 2 * st.completedTurns :=
          hcount (by rw [hst]; intro hcon; cases hcon)
        simp only [List.length_append, hlen, List.length_cons, List.length_nil]
        omega
      · obtain ⟨row, hfind, hmsgs, -⟩ := findRow_upsert_messages st.table cid
          USER_ID created (formatted_messages
            (st.messages ++ [⟨"human", inp.line⟩, ⟨"ai", reply⟩])) inp.now
        rw [hfind]
        simp [hmsgs]
    · simp only [hp, if_neg]
      rcases hstore with hnone | ⟨m, ⟨rest, hrest⟩, heven, hmsgs⟩
      · exact Or.inl hnone
      · exact Or.inr ⟨m, ⟨rest ++ [⟨"human", inp.line⟩, ⟨"ai", reply⟩],
          by rw [← List.append_assoc, hrest]⟩, heven, hmsgs⟩

/-- C3: at every reachable state of a run, the row stored under the run's
conversation id, once written, holds the serialization of an even-length
initial segment of the in-memory history - never a partial turn - because
each persist writes the whole snapshot in one atomic statement-plus-commit,
modelled as a single `upsert` state change. -/
theorem C3_prefix_complete (cid : String) (created : Nat)
    (inputs : List TurnInput) :
    findRow (run cid created inputs).table cid = none ∨
    ∃ m, (∃ rest, m ++ rest = (run cid created inputs).messages) ∧
      m.length % 2 = 0 ∧
      (findRow (run cid created inputs).table cid).map ChatHistoryRow.messages =
        some (formatted_messages m) := by
  have hinv : CountInv (run cid created inputs) ∧
      StoreInv cid (run cid created inputs) := by
    apply runFrom_inv cid created
      (fun st => CountInv st ∧ StoreInv cid st) (step_StoreInv cid created)
    exact ⟨fun _ => rfl, Or.inl rfl⟩
  exact hinv.2

/-- Connection configuration for the store, as read from the environment in
`src/chatbot.py`; only the database name matters to the bootstrap logic
(`os.getenv` returns `None` when the variable is absent, and Python treats an
empty string as falsy in the `if not target_db_name` check). -/
structure DbConfig where
  dbname : Option String
deriving DecidableEq, Repr

/-- State of the external PostgreSQL server: which databases exist and whether
the `chat_history` table with its indexes and trigger is installed. -/
structure PgState where
  databases : List String
  hasChatTable : Bool
deriving DecidableEq, Repr

/-- Embeds `DatabaseManager.create_database_if_not_exists` from
`src/database.py`. A missing or empty `dbname` raises a ValueError inside the
try block; that exception, and any connection or SQL failure (modelled by the
`connOk` oracle), is caught by the except clause which prints a diagnostic and
calls `exit(1)`, modelled as `Except.error 1`. On success the target database
is created only if absent. -/
def create_database_if_not_exists (cfg : DbConfig) (connOk : Bool)
    (pg : PgState) : Except Nat PgState :=
  match cfg.dbname with
  | none => Except.error 1
  | some n =>
      if n = "" then Except.error 1
      else if connOk then
        if n ∈ pg.databases then Except.ok pg
        else Except.ok { pg with databases := pg.databases ++ [n] }
      else Except.error 1

/-- Embeds `DatabaseManager.create_chat_table` from `src/database.py`: the
single SQL script uses `CREATE TABLE IF NOT EXISTS`,
`CREATE INDEX IF NOT EXISTS`, `CREATE OR REPLACE FUNCTION` and
`DROP TRIGGER IF EXISTS` followed by `CREATE TRIGGER`, so on success it
installs the schema whether or not it was already present; any failure is
caught and the process calls `exit(1)`. -/
def create_chat_table (connOk : Bool) (pg : PgState) : Except Nat PgState :=
  if connOk then Except.ok { pg with hasChatTable := true }
  else Except.error 1

/-- The two bootstrap calls run in order at process start in
`src/chatbot.py`, before the chat loop. -/
def bootstrapDb (cfg : DbConfig) (ok1 ok2 : Bool) (pg : PgState) :
    Except Nat PgState :=
  match create_database_if_not_exists cfg ok1 pg with
  | Except.error c => Except.error c
  | Except.ok pg1 => create_chat_table ok2 pg1

/-- Whole process: bootstrap first, then the chat loop; a bootstrap failure
exits with the recorded status and the loop never runs. -/
def mainRun (cfg : DbConfig) (ok1 ok2 : Bool) (pg : PgState) (cid : String)
    (created : Nat) (inputs : List TurnInput) : Except Nat LoopState :=
  match create_database_if_not_exists cfg ok1 pg with
  | Except.error c => Except.error c
  | Except.ok pg1 =>
      match create_chat_table ok2 pg1 with
      | Except.error c => Except.error c
      | Except.ok _ => Except.ok (run cid created inputs)

/-- C9: a missing database name makes `create_database_if_not_exists` exit
with status 1; every bootstrap outcome is either success or exit status 1 (a
non-zero status); the whole process runs the session loop exactly when
bootstrap succeeds, so any bootstrap failure exits before the loop starts;
and on success both bootstrap operations are idempotent, hence safe to run on
every process start. -/
theorem C9_bootstrap_fatal_idempotent :
    (∀ ok1 pg, create_database_if_not_exists ⟨none⟩ ok1 pg = Except.error 1) ∧
    (∀ cfg ok1 ok2 pg, (∃ pg2, bootstrapDb cfg ok1 ok2 pg = Except.ok pg2) ∨
      bootstrapDb cfg ok1 ok2 pg = Except.error 1) ∧
    (∀ cfg ok1 ok2 pg cid created inputs,
      mainRun cfg ok1 ok2 pg cid created inputs =
        Except.map (fun _ => run cid created inputs) (bootstrapDb cfg ok1 ok2 pg)) ∧
    (∀ cfg ok pg, (create_database_if_not_exists cfg ok pg).bind
        (create_database_if_not_exists cfg ok) =
      create_database_if_not_exists cfg ok pg) ∧
    (∀ ok pg, (create_chat_table ok pg).bind (create_chat_table ok) =
      create_chat_table ok pg) := by
  refine ⟨fun ok1 pg => rfl, ?_, ?_, ?_, ?_⟩
  · intro cfg ok1 ok2 pg
    unfold bootstrapDb create_database_if_not_exists create_chat_table
    rcases cfg with ⟨_ | n⟩
    · exact Or.inr rfl
    · by_cases hn : n = "" <;> cases ok1 <;> cases ok2 <;>
        by_cases hmem : n ∈ pg.databases <;>
        simp [hn, hmem]
  · intro cfg ok1 ok2 pg cid created inputs
    unfold mainRun bootstrapDb
    cases h1 : create_database_if_not_exists cfg ok1 pg with
    | error c => rfl
    | ok pg1 =>
        cases h2 : create_chat_table ok2 pg1 <;>
          simp [h2, Except.map]
  · intro cfg ok pg
    unfold create_database_if_not_exists
    rcases cfg with ⟨_ | n⟩
    · rfl
    · by_cases hn : n = "" <;> cases ok <;>
        by_cases hmem : n ∈ pg.databases <;>
        simp [hn, hmem, Except.bind]
  · intro ok pg
    cases ok <;> simp [create_chat_table, Except.bind]

end ChatBot
